import Mathlib

/-!
# Blob operations of the docker registry client (`registry/blob.go`)

A shallow embedding of `DownloadBlob`, `UploadBlob`, `HasBlob`, `BlobMetadata` and
`initiateUpload`, together with the parts of the Go standard library they call
(`net/url`, `net/http`, `fmt.Sprintf` with `%s`, `strings`).

Conventions.

* A Go `string` is a sequence of bytes.  It is embedded as the Lean `String` whose n-th
  character has the n-th byte as its code point, so ASCII text is written as it is in Go.
* Side effects are recorded in a trace of events (`Event`): a request handed to the HTTP
  client, a `Close` of a response body, a log line.  Every operation takes the trace so far
  and returns the extended trace next to its Go result.
* `Go α` is the outcome of a Go function body: it returns, or it panics on a nil
  dereference.
-/

set_option autoImplicit false

/-- The type of Go strings, under a name that stays free where a Go method is itself
called `String`. -/
abbrev Str := String

/-! ## `strings` -/

namespace Strings

/-- Go `strings.Cut(s, sep)` for a one-byte `sep`: the text before the first `sep`, the text
after it, and whether `sep` occurs (when it does not: all of `s`, the empty text, false). -/
def cut (sep : Char) : List Char → List Char × List Char × Bool
  | [] => ([], [], false)
  | c :: cs =>
    if c = sep then ([], cs, true)
    else ((c :: (cut sep cs).1), (cut sep cs).2.1, (cut sep cs).2.2)

/-- Go `strings.HasPrefix`. -/
def hasPrefix : List Char → List Char → Bool
  | _, [] => true
  | [], _ :: _ => false
  | c :: cs, p :: ps => c == p && hasPrefix cs ps

/-- Go `strings.HasSuffix`. -/
def hasSuffix (s suf : List Char) : Bool :=
  hasPrefix s.reverse suf.reverse

/-- Go `strings.Count(s, sep)` for a one-byte `sep`. -/
def count (sep : Char) (s : List Char) : Nat :=
  s.count sep

/-- Go `strings.Contains(s, sep)` for a one-byte `sep`. -/
def contains (sep : Char) (s : List Char) : Bool :=
  s.any (fun c => c == sep)

/-- Go `strings.Index(s, pat)`: the offset of the first occurrence, `none` for -1. -/
def index (pat : List Char) : List Char → Option Nat
  | [] => if pat = [] then some 0 else none
  | c :: cs =>
    if hasPrefix (c :: cs) pat then some 0
    else (index pat cs).map (· + 1)

/-- Go `strings.LastIndex(s, sep)` for a one-byte `sep`: `none` for -1. -/
def lastIndex (sep : Char) : List Char → Option Nat
  | [] => none
  | c :: cs =>
    match lastIndex sep cs with
    | some i => some (i + 1)
    | none => if c = sep then some 0 else none

/-- Lexicographic byte order on strings, the order of Go `<` on strings. -/
def less : List Char → List Char → Bool
  | _, [] => false
  | [], _ :: _ => true
  | a :: as, b :: bs => a.toNat < b.toNat || (a.toNat == b.toNat && less as bs)

end Strings

/-! ## `fmt` -/

namespace Fmt

/-- Go `fmt.Sprintf` for formats whose only verb is `%s` and whose operands are strings:
each `%s` is replaced by the next operand (`%!s(MISSING)` when none is left), `%%` is a
percent sign, every other byte is copied.  Operands left over are ignored here; the source
never passes any. -/
def sprintf : List Char → List String → List Char
  | [], _ => []
  | [c], _ => [c]
  | c :: d :: rest, args =>
    if c = '%' then
      if d = 's' then
        match args with
        | a :: args => a.data ++ sprintf rest args
        | [] => "%!s(MISSING)".data ++ sprintf rest []
      else if d = '%' then '%' :: sprintf rest args
      else c :: sprintf (d :: rest) args
    else c :: sprintf (d :: rest) args

/-- Go `fmt.Sprintf(format, args...)`. -/
def Sprintf (format : String) (args : List String) : String :=
  ⟨sprintf format.data args⟩

end Fmt

/-! ## Data shared by `net/url` and `net/http` -/

/-- Go `http.Header`, restricted to one value per key: the pairs of canonical key and
value.  The source only uses keys that are already in canonical form (`Location`,
`Request-Token`, `Content-Type`, `Authorization`). -/
abbrev Header := List (String × String)

namespace Header

/-- Go `Header.Get(key)`: the value stored under `key`, the empty string when there is
none. -/
def Get (h : Header) (key : String) : String :=
  match h.find? (fun kv => kv.1 == key) with
  | some kv => kv.2
  | none => ""

/-- Go `Header.Set(key, value)`: replaces whatever is stored under `key`. -/
def Set (h : Header) (key value : String) : Header :=
  h.filter (fun kv => kv.1 != key) ++ [(key, value)]

end Header

/-- Go `io.ReadCloser` of a response: the bytes it yields, and an identity by which a
`Close` on it is recognised in the trace. -/
structure Body where
  id : Nat
  content : String
deriving DecidableEq, Repr

/-- Go `http.Response`, the fields this package reads. -/
structure Response where
  StatusCode : Int
  Header : Header
  Body : Body
  ContentLength : Int
deriving DecidableEq, Repr

/-- Go `error` values, by dynamic type.  `httpStatusError` is the registry package's
own `*HTTPStatusError`, whose declaration lies outside `blob.go`; the code reads its field
`Response.StatusCode`. -/
inductive GoError
  /-- Made by `errors.New` / `fmt.Errorf`. -/
  | errorString (s : String)
  /-- Go `url.EscapeError`. -/
  | escapeError (s : String)
  /-- Go `url.InvalidHostError`. -/
  | invalidHostError (s : String)
  /-- Go `fmt.Errorf("invalid port %q after host", colonPort)`. -/
  | invalidPort (colonPort : String)
  /-- Go `*url.Error`. -/
  | urlError (Op : String) (URL : String) (Err : GoError)
  /-- The package's `*HTTPStatusError`. -/
  | httpStatusError (Response : Response)
  /-- Any other error type (a network failure, a cancelled context, ...). -/
  | other (description : String)
deriving DecidableEq, Repr

/-- Equality of Go results `(value, error)` is decidable. -/
instance instDecidableEqExcept {ε α : Type} [DecidableEq ε] [DecidableEq α] :
    DecidableEq (Except ε α)
  | .ok a, .ok b =>
    if h : a = b then isTrue (congrArg Except.ok h)
    else isFalse (fun h2 => h (Except.ok.inj h2))
  | .error a, .error b =>
    if h : a = b then isTrue (congrArg Except.error h)
    else isFalse (fun h2 => h (Except.error.inj h2))
  | .ok _, .error _ => isFalse (fun h => Except.noConfusion h)
  | .error _, .ok _ => isFalse (fun h => Except.noConfusion h)

/-- Outcome of a Go function body: a returned value, or a nil-dereference panic. -/
inductive Go (α : Type)
  | ret (v : α)
  | nilPanic
deriving DecidableEq, Repr

/-! ## `net/url` -/

namespace NetURL

/-- Go `url.encoding`. -/
inductive Encoding
  | encodePath
  | encodePathSegment
  | encodeHost
  | encodeZone
  | encodeUserPassword
  | encodeQueryComponent
  | encodeFragment
deriving DecidableEq, Repr

open Encoding

/-- Bytes `a`..`z`, `A`..`Z`, `0`..`9`. -/
def isAlnum (c : Char) : Bool :=
  (0x61 ≤ c.toNat && c.toNat ≤ 0x7a) || (0x41 ≤ c.toNat && c.toNat ≤ 0x5a)
    || (0x30 ≤ c.toNat && c.toNat ≤ 0x39)

/-- Go `ishex`. -/
def ishex (c : Char) : Bool :=
  (0x30 ≤ c.toNat && c.toNat ≤ 0x39) || (0x61 ≤ c.toNat && c.toNat ≤ 0x66)
    || (0x41 ≤ c.toNat && c.toNat ≤ 0x46)

/-- Go `unhex`. -/
def unhex (c : Char) : Nat :=
  if 0x30 ≤ c.toNat && c.toNat ≤ 0x39 then c.toNat - 0x30
  else if 0x61 ≤ c.toNat && c.toNat ≤ 0x66 then c.toNat - 0x61 + 10
  else if 0x41 ≤ c.toNat && c.toNat ≤ 0x46 then c.toNat - 0x41 + 10
  else 0

/-- Go `upperhex[n]` for `n < 16`. -/
def upperhex (n : Nat) : Char :=
  if n < 10 then Char.ofNat (0x30 + n) else Char.ofNat (0x41 + (n - 10))

/-- Go `shouldEscape(c, mode)`. -/
def shouldEscape (c : Char) (mode : Encoding) : Bool :=
  if isAlnum c then false
  else if (mode = encodeHost || mode = encodeZone) &&
      (c = '!' || c = '$' || c = '&' || c = '\'' || c = '(' || c = ')' || c = '*' || c = '+'
        || c = ',' || c = ';' || c = '=' || c = ':' || c = '[' || c = ']' || c = '<'
        || c = '>' || c = '"') then false
  else if c = '-' || c = '_' || c = '.' || c = '~' then false
  else if c = '$' || c = '&' || c = '+' || c = ',' || c = '/' || c = ':' || c = ';'
      || c = '=' || c = '?' || c = '@' then
    match mode with
    | encodePath => c = '?'
    | encodePathSegment => c = '/' || c = ';' || c = ',' || c = '?'
    | encodeUserPassword => c = '@' || c = '/' || c = '?' || c = ':'
    | encodeQueryComponent => true
    | encodeFragment => false
    | _ => true
  else if mode = encodeFragment && (c = '!' || c = '(' || c = ')' || c = '*') then false
  else true

/-- Go `escape(s, mode)`, on the bytes of `s`. -/
def escapeBytes (mode : Encoding) : List Char → List Char
  | [] => []
  | c :: cs =>
    if c = ' ' && mode = encodeQueryComponent then '+' :: escapeBytes mode cs
    else if shouldEscape c mode then
      '%' :: upperhex (c.toNat / 16 % 16) :: upperhex (c.toNat % 16) :: escapeBytes mode cs
    else c :: escapeBytes mode cs

/-- Go `escape(s, mode)`. -/
def escape (s : String) (mode : Encoding) : String :=
  ⟨escapeBytes mode s.data⟩

/-- Go `url.QueryEscape`. -/
def QueryEscape (s : String) : String :=
  escape s encodeQueryComponent

/-- First loop of Go `unescape`: the error it reports for a malformed or forbidden
byte, `none` when the text passes. -/
def unescapeCheck (mode : Encoding) : List Char → Option GoError
  | [] => none
  | [c] =>
    if c = '%' then some (.escapeError ⟨[c]⟩)
    else if c = '+' then none
    else if (mode = encodeHost || mode = encodeZone) && c.toNat < 0x80
        && shouldEscape c encodeHost then some (.invalidHostError ⟨[c]⟩)
    else none
  | [c, d] =>
    if c = '%' then some (.escapeError ⟨[c, d]⟩)
    else if c = '+' then unescapeCheck mode [d]
    else if (mode = encodeHost || mode = encodeZone) && c.toNat < 0x80
        && shouldEscape c encodeHost then some (.invalidHostError ⟨[c]⟩)
    else unescapeCheck mode [d]
  | c :: d :: e :: rest =>
    if c = '%' then
      if !ishex d || !ishex e then some (.escapeError ⟨[c, d, e]⟩)
      else if mode = encodeHost && unhex d < 8 && [c, d, e] ≠ ['%', '2', '5'] then
        some (.escapeError ⟨[c, d, e]⟩)
      else if mode = encodeZone && [c, d, e] ≠ ['%', '2', '5']
          && Char.ofNat (unhex d * 16 + unhex e) ≠ ' '
          && shouldEscape (Char.ofNat (unhex d * 16 + unhex e)) encodeHost then
        some (.escapeError ⟨[c, d, e]⟩)
      else unescapeCheck mode rest
    else if c = '+' then unescapeCheck mode (d :: e :: rest)
    else if (mode = encodeHost || mode = encodeZone) && c.toNat < 0x80
        && shouldEscape c encodeHost then some (.invalidHostError ⟨[c]⟩)
    else unescapeCheck mode (d :: e :: rest)

/-- Second loop of Go `unescape`, run on text the first loop accepted: every `%XY`
becomes the byte it names, and in a query component `+` becomes a space. -/
def unescapeBytes (mode : Encoding) : List Char → List Char
  | [] => []
  | [c] => if c = '+' && mode = encodeQueryComponent then [' '] else [c]
  | [c, d] =>
    (if c = '+' && mode = encodeQueryComponent then ' ' else c) :: unescapeBytes mode [d]
  | c :: d :: e :: rest =>
    if c = '%' then Char.ofNat (unhex d * 16 + unhex e) :: unescapeBytes mode rest
    else (if c = '+' && mode = encodeQueryComponent then ' ' else c)
      :: unescapeBytes mode (d :: e :: rest)

/-- Go `unescape(s, mode)`. -/
def unescape (s : String) (mode : Encoding) : Except GoError String :=
  match unescapeCheck mode s.data with
  | some e => .error e
  | none => .ok ⟨unescapeBytes mode s.data⟩

/-- Go `url.QueryUnescape`. -/
def QueryUnescape (s : String) : Except GoError String :=
  unescape s encodeQueryComponent

/-- Go `url.Userinfo`. -/
structure Userinfo where
  username : String
  password : String
  passwordSet : Bool
deriving DecidableEq, Repr

/-- Go `url.URL`.  `User` is a pointer in Go: `none` is nil. -/
structure URL where
  Scheme : String := ""
  Opaque : String := ""
  User : Option Userinfo := none
  Host : String := ""
  Path : String := ""
  RawPath : String := ""
  OmitHost : Bool := false
  ForceQuery : Bool := false
  RawQuery : String := ""
  Fragment : String := ""
  RawFragment : String := ""
deriving DecidableEq, Repr

/-- Go `stringContainsCTLByte`. -/
def stringContainsCTLByte (s : List Char) : Bool :=
  s.any (fun c => c.toNat < 0x20 || c.toNat == 0x7f)

/-- Bytes `a`..`z`, `A`..`Z`. -/
def isLetter (c : Char) : Bool :=
  (0x61 ≤ c.toNat && c.toNat ≤ 0x7a) || (0x41 ≤ c.toNat && c.toNat ≤ 0x5a)

/-- Bytes `0`..`9`. -/
def isDigit (c : Char) : Bool :=
  0x30 ≤ c.toNat && c.toNat ≤ 0x39

/-- Go `strings.ToLower` on a scheme, which holds ASCII bytes only. -/
def toLower (s : List Char) : List Char :=
  s.map (fun c => if 0x41 ≤ c.toNat && c.toNat ≤ 0x5a then Char.ofNat (c.toNat + 0x20) else c)

/-- Loop of Go `getScheme`: `scanned` is `rawURL[:i]`, the third argument `rawURL[i:]`. -/
def getSchemeLoop (rawURL : List Char) :
    List Char → List Char → Except GoError (List Char × List Char)
  | _, [] => .ok ([], rawURL)
  | scanned, c :: cs =>
    if isLetter c then getSchemeLoop rawURL (scanned ++ [c]) cs
    else if isDigit c || c = '+' || c = '-' || c = '.' then
      if scanned = [] then .ok ([], rawURL)
      else getSchemeLoop rawURL (scanned ++ [c]) cs
    else if c = ':' then
      if scanned = [] then .error (.errorString "missing protocol scheme")
      else .ok (scanned, cs)
    else .ok ([], rawURL)

/-- Go `getScheme(rawURL)`: the scheme and the text after its colon. -/
def getScheme (rawURL : List Char) : Except GoError (List Char × List Char) :=
  getSchemeLoop rawURL [] rawURL

/-- Go `validOptionalPort`. -/
def validOptionalPort (port : List Char) : Bool :=
  match port with
  | [] => true
  | c :: digits => c = ':' && digits.all isDigit

/-- Go `validUserinfo`. -/
def validUserinfo (s : List Char) : Bool :=
  s.all (fun r => isAlnum r || r = '-' || r = '.' || r = '_' || r = ':' || r = '~'
    || r = '!' || r = '$' || r = '&' || r = '\'' || r = '(' || r = ')' || r = '*'
    || r = '+' || r = ',' || r = ';' || r = '=' || r = '%' || r = '@')

/-- Go `parseHost`. -/
def parseHost (host : List Char) : Except GoError String :=
  if Strings.hasPrefix host ['['] then
    match Strings.lastIndex ']' host with
    | none => .error (.errorString "missing ']' in host")
    | some i =>
      if !validOptionalPort (host.drop (i + 1)) then
        .error (.invalidPort ⟨host.drop (i + 1)⟩)
      else
        match Strings.index ['%', '2', '5'] (host.take i) with
        | some zone =>
          match unescape ⟨host.take zone⟩ encodeHost with
          | .error e => .error e
          | .ok host1 =>
            match unescape ⟨(host.take i).drop zone⟩ encodeZone with
            | .error e => .error e
            | .ok host2 =>
              match unescape ⟨host.drop i⟩ encodeHost with
              | .error e => .error e
              | .ok host3 => .ok (host1 ++ host2 ++ host3)
        | none => unescape ⟨host⟩ encodeHost
  else
    match Strings.lastIndex ':' host with
    | some i =>
      if !validOptionalPort (host.drop i) then .error (.invalidPort ⟨host.drop i⟩)
      else unescape ⟨host⟩ encodeHost
    | none => unescape ⟨host⟩ encodeHost

/-- Go `parseAuthority`. -/
def parseAuthority (authority : List Char) : Except GoError (Option Userinfo × String) :=
  match Strings.lastIndex '@' authority with
  | none =>
    match parseHost authority with
    | .error e => .error e
    | .ok host => .ok (none, host)
  | some i =>
    match parseHost (authority.drop (i + 1)) with
    | .error e => .error e
    | .ok host =>
      if !validUserinfo (authority.take i) then
        .error (.errorString "net/url: invalid userinfo")
      else if !Strings.contains ':' (authority.take i) then
        match unescape ⟨authority.take i⟩ encodeUserPassword with
        | .error e => .error e
        | .ok userinfo => .ok (some ⟨userinfo, "", false⟩, host)
      else
        match unescape ⟨(Strings.cut ':' (authority.take i)).1⟩ encodeUserPassword with
        | .error e => .error e
        | .ok username =>
          match unescape ⟨(Strings.cut ':' (authority.take i)).2.1⟩ encodeUserPassword with
          | .error e => .error e
          | .ok password => .ok (some ⟨username, password, true⟩, host)

/-- Go `(*URL).setPath`. -/
def URL.setPath (u : URL) (p : String) : Except GoError URL :=
  match unescape p encodePath with
  | .error e => .error e
  | .ok path =>
    if p = escape path encodePath then .ok { u with Path := path, RawPath := "" }
    else .ok { u with Path := path, RawPath := p }

/-- Go `(*URL).setFragment`. -/
def URL.setFragment (u : URL) (f : String) : Except GoError URL :=
  match unescape f encodeFragment with
  | .error e => .error e
  | .ok frag =>
    if f = escape frag encodeFragment then .ok { u with Fragment := frag, RawFragment := "" }
    else .ok { u with Fragment := frag, RawFragment := f }

/-- Second half of Go `parse(rawURL, viaRequest)` with `viaRequest = false`: what it
does with `rest`, the text between the scheme and the query, once `url` holds the scheme
and the query. -/
def parseAfterQuery (url : URL) (rest : List Char) : Except GoError URL :=
  if !Strings.hasPrefix rest ['/'] && url.Scheme ≠ "" then
    .ok { url with Opaque := ⟨rest⟩ }
  else if !Strings.hasPrefix rest ['/'] && Strings.contains ':' (Strings.cut '/' rest).1 then
    .error (.errorString "first path segment in URL cannot contain colon")
  else if (url.Scheme ≠ "" || !Strings.hasPrefix rest ['/', '/', '/'])
      && Strings.hasPrefix rest ['/', '/'] then
    let authority : List Char := (Strings.cut '/' (rest.drop 2)).1
    let path : List Char :=
      if (Strings.cut '/' (rest.drop 2)).2.2 then '/' :: (Strings.cut '/' (rest.drop 2)).2.1
      else []
    match parseAuthority authority with
    | .error e => .error e
    | .ok (user, host) => URL.setPath { url with User := user, Host := host } ⟨path⟩
  else if url.Scheme ≠ "" && Strings.hasPrefix rest ['/'] then
    URL.setPath { url with OmitHost := true } ⟨rest⟩
  else URL.setPath url ⟨rest⟩

/-- Go `parse(rawURL, viaRequest)` with `viaRequest = false`, the only way `url.Parse`
calls it: the control-byte check, the scheme, the split at the first `?`, then
`parseAfterQuery`. -/
def parse (rawURL : List Char) : Except GoError URL :=
  if stringContainsCTLByte rawURL then
    .error (.errorString "net/url: invalid control character in URL")
  else if rawURL = ['*'] then .ok { Path := "*" }
  else
    match getScheme rawURL with
    | .error e => .error e
    | .ok (scheme, afterScheme) =>
      let forceQuery : Bool :=
        Strings.hasSuffix afterScheme ['?'] && Strings.count '?' afterScheme = 1
      let rest : List Char :=
        if forceQuery then afterScheme.dropLast else (Strings.cut '?' afterScheme).1
      let rawQuery : List Char :=
        if forceQuery then [] else (Strings.cut '?' afterScheme).2.1
      parseAfterQuery
        { Scheme := ⟨toLower scheme⟩, ForceQuery := forceQuery, RawQuery := ⟨rawQuery⟩ } rest

/-- Go `url.Parse`. -/
def Parse (rawURL : String) : Except GoError URL :=
  match parse (Strings.cut '#' rawURL.data).1 with
  | .error err => .error (.urlError "parse" ⟨(Strings.cut '#' rawURL.data).1⟩ err)
  | .ok url =>
    if (Strings.cut '#' rawURL.data).2.1 = [] then .ok url
    else
      match URL.setFragment url ⟨(Strings.cut '#' rawURL.data).2.1⟩ with
      | .error err => .error (.urlError "parse" rawURL err)
      | .ok url => .ok url

/-- Go `validEncoded`. -/
def validEncoded (s : List Char) (mode : Encoding) : Bool :=
  s.all (fun c =>
    if c = '!' || c = '$' || c = '&' || c = '\'' || c = '(' || c = ')' || c = '*' || c = '+'
      || c = ',' || c = ';' || c = '=' || c = ':' || c = '@' then true
    else if c = '[' || c = ']' then true
    else if c = '%' then true
    else !shouldEscape c mode)

/-- Go `(*URL).EscapedPath`. -/
def URL.EscapedPath (u : URL) : String :=
  let rawPathFits : Bool :=
    match unescape u.RawPath encodePath with
    | .ok p => p = u.Path
    | .error _ => false
  if u.RawPath ≠ "" && validEncoded u.RawPath.data encodePath && rawPathFits then u.RawPath
  else if u.Path = "*" then "*"
  else escape u.Path encodePath

/-- Go `(*URL).EscapedFragment`. -/
def URL.EscapedFragment (u : URL) : String :=
  let rawFragmentFits : Bool :=
    match unescape u.RawFragment encodeFragment with
    | .ok f => f = u.Fragment
    | .error _ => false
  if u.RawFragment ≠ "" && validEncoded u.RawFragment.data encodeFragment && rawFragmentFits then
    u.RawFragment
  else escape u.Fragment encodeFragment

/-- Go `(*Userinfo).String`. -/
def Userinfo.String (u : Userinfo) : Str :=
  if u.passwordSet then
    escape u.username encodeUserPassword ++ ":" ++ escape u.password encodeUserPassword
  else escape u.username encodeUserPassword

/-- First part of Go `(*URL).String`: what it writes to its buffer before the query, that
is the scheme and then either the opaque text or authority and path. -/
def URL.stringBeforeQuery (u : URL) : Str :=
  let scheme : Str := if u.Scheme ≠ "" then u.Scheme ++ ":" else ""
  let authority : Str :=
    if u.Scheme ≠ "" || u.Host ≠ "" || u.User.isSome then
      if u.OmitHost && u.Host = "" && u.User.isNone then ""
      else
        (if u.Host ≠ "" || u.Path ≠ "" || u.User.isSome then "//" else "")
          ++ (match u.User with
              | some ui => ui.String ++ "@"
              | none => "")
          ++ (if u.Host ≠ "" then escape u.Host encodeHost else "")
    else ""
  let path : Str := u.EscapedPath
  let slash : Str :=
    if path ≠ "" && !Strings.hasPrefix path.data ['/'] && u.Host ≠ "" then "/" else ""
  let dot : Str :=
    if scheme ++ authority ++ slash = ""
        && Strings.contains ':' (Strings.cut '/' path.data).1 then "./"
    else ""
  if u.Opaque ≠ "" then scheme ++ u.Opaque
  else scheme ++ authority ++ slash ++ dot ++ path

/-- Go `(*URL).String`: what `stringBeforeQuery` writes, then the query, then the
fragment. -/
def URL.String (u : URL) : Str :=
  let query : Str := if u.ForceQuery || u.RawQuery ≠ "" then "?" ++ u.RawQuery else ""
  let fragment : Str := if u.Fragment ≠ "" then "#" ++ u.EscapedFragment else ""
  u.stringBeforeQuery ++ query ++ fragment

/-- Go `url.Values`, a map from key to the list of its values: the entries, one per key. -/
abbrev Values := List (String × List String)

/-- Go `m[key] = append(m[key], value)`. -/
def Values.add : Values → String → String → Values
  | [], key, value => [(key, [value])]
  | (k, vs) :: m, key, value =>
    if k = key then (k, vs ++ [value]) :: m else (k, vs) :: Values.add m key value

/-- Go `Values.Set`: `v[key] = []string{value}`. -/
def Values.Set : Values → String → String → Values
  | [], key, value => [(key, [value])]
  | (k, vs) :: m, key, value =>
    if k = key then (k, [value]) :: m else (k, vs) :: Values.Set m key value

/-- Go `strings.Split(s, sep)` for a one-byte `sep`; `parseQuery` walks through these
pieces by repeated `strings.Cut(query, "&")`. -/
def split (sep : Char) : List Char → List (List Char)
  | [] => [[]]
  | c :: cs =>
    if c = sep then [] :: split sep cs
    else
      match split sep cs with
      | piece :: pieces => (c :: piece) :: pieces
      | [] => [[c]]

/-- One turn of the loop of Go `parseQuery` on the piece `key`; a piece that is empty,
holds a semicolon or does not unescape is skipped. -/
def parseQueryPiece (m : Values) (piece : List Char) : Values :=
  if Strings.contains ';' piece then m
  else if piece = [] then m
  else
    match QueryUnescape ⟨(Strings.cut '=' piece).1⟩ with
    | .error _ => m
    | .ok key =>
      match QueryUnescape ⟨(Strings.cut '=' piece).2.1⟩ with
      | .error _ => m
      | .ok value => Values.add m key value

/-- Go `(*URL).Query`: `ParseQuery(u.RawQuery)` with its error dropped. -/
def URL.Query (u : URL) : Values :=
  (split '&' u.RawQuery.data).foldl parseQueryPiece []

/-- Insertion of an entry into entries sorted by key. -/
def Values.insertSorted (e : String × List String) : Values → Values
  | [] => [e]
  | f :: m => if Strings.less f.1.data e.1.data then f :: Values.insertSorted e m else e :: f :: m

/-- The entries in the order of their keys, as `Encode` visits them. -/
def Values.sorted : Values → Values
  | [] => []
  | e :: m => Values.insertSorted e (Values.sorted m)

/-- The text Go `Values.Encode` writes for one key: `key=value` for each of its values,
each preceded by `&`. -/
def Values.encodeEntry (key : String) : List String → String
  | [] => ""
  | v :: vs => "&" ++ QueryEscape key ++ "=" ++ QueryEscape v ++ Values.encodeEntry key vs

/-- Go `Values.Encode`: `&` stands between the pairs, not before the first. -/
def Values.Encode (v : Values) : String :=
  ⟨((Values.sorted v).foldl (fun acc e => acc ++ Values.encodeEntry e.1 e.2) "").data.drop 1⟩

end NetURL

/-! ## `context` and `net/http` -/

/-- Go `context.Context` values: the background context, or one made by the caller
(with a cancel function or a deadline), told apart by an identity. -/
inductive Context
  | background
  | derived (id : Nat)
deriving DecidableEq, Repr

namespace NetHTTP

/-- Go `http.Request`, the fields this package sets.  `Body` is nil (`none`) or a reader,
given by the bytes it yields; `ctx` is the context the request is bound to. -/
structure Request where
  Method : String
  URL : NetURL.URL
  Header : Header
  Body : Option String
  Host : String
  ctx : Context
deriving DecidableEq, Repr

/-- Go `httpguts.IsTokenRune`: the bytes allowed in a method name. -/
def isTokenRune (c : Char) : Bool :=
  NetURL.isAlnum c || c = '!' || c = '#' || c = '$' || c = '%' || c = '&' || c = '\''
    || c = '*' || c = '+' || c = '-' || c = '.' || c = '^' || c = '_'
    || c = Char.ofNat 0x60 || c = '|' || c = '~'

/-- Go `validMethod`. -/
def validMethod (method : String) : Bool :=
  method.data ≠ [] && method.data.all isTokenRune

/-- Go `removeEmptyPort`: a host that ends in a colon with no port loses the colon. -/
def removeEmptyPort (host : String) : String :=
  match Strings.lastIndex ':' host.data, Strings.lastIndex ']' host.data with
  | some i, some j =>
    if j < i && Strings.hasSuffix host.data [':'] then ⟨host.data.dropLast⟩ else host
  | some _, none => if Strings.hasSuffix host.data [':'] then ⟨host.data.dropLast⟩ else host
  | none, _ => host

/-- Go `http.NewRequest(method, url, body)`: `NewRequestWithContext` with the background
context. -/
def NewRequest (method url : String) (body : Option String) : Except GoError Request :=
  let method := if method = "" then "GET" else method
  if !validMethod method then .error (.errorString "net/http: invalid method")
  else
    match NetURL.Parse url with
    | .error err => .error err
    | .ok u =>
      .ok { Method := method
            URL := { u with Host := removeEmptyPort u.Host }
            Header := []
            Body := body
            Host := removeEmptyPort u.Host
            ctx := Context.background }

/-- Go `(*Request).WithContext`. -/
def Request.WithContext (r : Request) (ctx : Context) : Request :=
  { r with ctx := ctx }

/-- Go `req.Header.Set(key, value)`. -/
def Request.setHeader (r : Request) (key value : String) : Request :=
  { r with Header := r.Header.Set key value }

end NetHTTP

open NetHTTP

/-- What the operations do to the outside world, in the order in which they do it. -/
inductive Event
  /-- A request was handed to the HTTP client (`Client.Do`, also behind `Get` and
  `Head`). -/
  | sent (req : Request)
  /-- `Close` was called on the response body with this identity. -/
  | closed (body : Nat)
  /-- `Logf` was called and formatted this line. -/
  | logged (line : String)
deriving DecidableEq, Repr

/-- The events so far, oldest first. -/
abbrev Trace := List Event

/-- A pair `(resp, err)` as the HTTP client returns it; `none` is nil. -/
abbrev Exchange := Option Response × Option GoError

/-- The registry's `*http.Client`: for each request, what the transport behind it answers.
No assumption is made on the answer. -/
structure Client where
  transport : Request → Exchange

/-- Go `(*Client).Do`. -/
def Client.Do (c : Client) (req : Request) (tr : Trace) : Exchange × Trace :=
  (c.transport req, tr ++ [Event.sent req])

/-- Go `(*Client).Get`. -/
def Client.Get (c : Client) (url : String) (tr : Trace) : Exchange × Trace :=
  match NewRequest "GET" url none with
  | .error err => ((none, some err), tr)
  | .ok req => c.Do req tr

/-- Go `(*Client).Head`. -/
def Client.Head (c : Client) (url : String) (tr : Trace) : Exchange × Trace :=
  match NewRequest "HEAD" url none with
  | .error err => ((none, some err), tr)
  | .ok req => c.Do req tr

/-- Go `resp.Body.Close()`. -/
def Body.Close (b : Body) (tr : Trace) : Trace :=
  tr ++ [Event.closed b.id]

/-! ## The registry package -/

/-- Go `distribution.Descriptor`; its fields beyond these three are never set here. -/
structure Descriptor where
  MediaType : String := ""
  Size : Int := 0
  Digest : String := ""
deriving DecidableEq, Repr

/-- The package's `Registry`: the base address and the HTTP client. -/
structure Registry where
  URL : String
  Client : Client

/-- Modelled from the spec: `Registry.url` is declared outside `blob.go`.  It formats the
path from its template and puts it after the registry's base address (the Blob Locator:
`/v2/{repository}/blobs/{digest}` and `/v2/{repository}/blobs/uploads/`). -/
def Registry.url (registry : Registry) (pathTemplate : String) (args : List String) : String :=
  Fmt.Sprintf "%s%s" [registry.URL, Fmt.Sprintf pathTemplate args]

/-- Modelled from the spec: `Registry.Logf` is declared outside `blob.go`.  It hands one
formatted line to the logging sink. -/
def Registry.Logf (_registry : Registry) (format : String) (args : List String)
    (tr : Trace) : Trace :=
  tr ++ [Event.logged (Fmt.Sprintf format args)]

/-- Go `Registry.DownloadBlob` (blob.go:14-24). -/
def Registry.DownloadBlob (registry : Registry) (repository digest : String) (tr : Trace) :
    Go (Option Body × Option GoError) × Trace :=
  let url := registry.url "/v2/%s/blobs/%s" [repository, digest]
  let tr := registry.Logf "registry.blob.download url=%s repository=%s digest=%s"
    [url, repository, digest] tr
  match registry.Client.Get url tr with
  | ((resp, err), tr) =>
    match err with
    | some err => (.ret (none, some err), tr)
    | none =>
      match resp with
      | none => (.nilPanic, tr)
      | some resp => (.ret (some resp.Body, none), tr)

/-- Go `Registry.initiateUpload` (blob.go:93-115). -/
def Registry.initiateUpload (registry : Registry) (ctx : Context) (repository : String)
    (tr : Trace) : Go (Option NetURL.URL × String × Option GoError) × Trace :=
  let initiateURL := registry.url "/v2/%s/blobs/uploads/" [repository]
  let tr := registry.Logf "registry.layer.initiate-upload url=%s repository=%s"
    [initiateURL, repository] tr
  match NewRequest "POST" initiateURL none with
  | .error err => (.ret (none, "", some err), tr)
  | .ok req =>
    let req := req.setHeader "Content-Type" "application/octet-stream"
    match registry.Client.Do (req.WithContext ctx) tr with
    | ((resp, err), tr) =>
      match err with
      | some err => (.ret (none, "", some err), tr)
      | none =>
        match resp with
        | none => (.nilPanic, tr)
        | some resp =>
          let token := resp.Header.Get "Request-Token"
          -- defer resp.Body.Close()
          let location := resp.Header.Get "Location"
          match NetURL.Parse location with
          | .error err => (.ret (none, token, some err), resp.Body.Close tr)
          | .ok locationURL => (.ret (some locationURL, token, none), resp.Body.Close tr)

/-- Go `Registry.UploadBlob` (blob.go:26-46). -/
def Registry.UploadBlob (registry : Registry) (cxt : Context) (repository digest : String)
    (content : Option String) (tr : Trace) : Go (Option GoError) × Trace :=
  match registry.initiateUpload cxt repository tr with
  | (.nilPanic, tr) => (.nilPanic, tr)
  | (.ret (_, _, some err), tr) => (.ret (some err), tr)
  | (.ret (none, _, none), tr) => (.nilPanic, tr)
  | (.ret (some uploadURL, token, none), tr) =>
    let q := uploadURL.Query
    let q := q.Set "digest" digest
    let uploadURL := { uploadURL with RawQuery := q.Encode }
    let tr := registry.Logf "registry.blob.upload url=%s repository=%s digest=%s"
      [uploadURL.String, repository, digest] tr
    match NewRequest "PUT" uploadURL.String content with
    | .error err => (.ret (some err), tr)
    | .ok upload =>
      let upload := upload.setHeader "Content-Type" "application/octet-stream"
      let upload := upload.setHeader "Authorization" (Fmt.Sprintf "Bearer %s" [token])
      match registry.Client.Do (upload.WithContext cxt) tr with
      | ((_, err), tr) => (.ret err, tr)

/-- Go `Registry.HasBlob` (blob.go:48-73).  `deferred` is the `defer resp.Body.Close()`
registered when `resp` is not nil; it runs at every return below it. -/
def Registry.HasBlob (registry : Registry) (repository digest : String) (tr : Trace) :
    Go (Bool × Option GoError) × Trace :=
  let checkURL := registry.url "/v2/%s/blobs/%s" [repository, digest]
  let tr := registry.Logf "registry.blob.check url=%s repository=%s digest=%s"
    [checkURL, repository, digest] tr
  match registry.Client.Head checkURL tr with
  | ((resp, err), tr) =>
    let deferred : Trace → Trace :=
      match resp with
      | some resp => resp.Body.Close
      | none => id
    match err with
    | none =>
      match resp with
      | none => (.nilPanic, deferred tr)
      | some resp => (.ret (resp.StatusCode == 200, none), deferred tr)
    | some err =>
      match err with
      | .urlError _ _ (.httpStatusError httpResp) =>
        if httpResp.StatusCode = 404 then (.ret (false, none), deferred tr)
        else (.ret (false, some err), deferred tr)
      | _ => (.ret (false, some err), deferred tr)

/-- Go `Registry.BlobMetadata` (blob.go:75-91). -/
def Registry.BlobMetadata (registry : Registry) (repository digest : String) (tr : Trace) :
    Go (Descriptor × Option GoError) × Trace :=
  let checkURL := registry.url "/v2/%s/blobs/%s" [repository, digest]
  let tr := registry.Logf "registry.blob.check url=%s repository=%s digest=%s"
    [checkURL, repository, digest] tr
  match registry.Client.Head checkURL tr with
  | ((resp, err), tr) =>
    let deferred : Trace → Trace :=
      match resp with
      | some resp => resp.Body.Close
      | none => id
    match err with
    | some err => (.ret ({}, some err), deferred tr)
    | none =>
      match resp with
      | none => (.nilPanic, deferred tr)
      | some resp => (.ret ({ Digest := digest, Size := resp.ContentLength }, none), deferred tr)

/-! ## Observations on a run -/

/-- The pair `(resp, err)` that `registry.Client.Head` hands back for the blob's address:
the transport outcome of the HEAD request of `HasBlob` and `BlobMetadata`. -/
def Registry.headExchange (registry : Registry) (repository digest : String) : Exchange :=
  (registry.Client.Head (registry.url "/v2/%s/blobs/%s" [repository, digest]) []).1

/-- The pair `(resp, err)` that `registry.Client.Get` hands back for the blob's address:
the transport outcome of the GET request of `DownloadBlob`. -/
def Registry.getExchange (registry : Registry) (repository digest : String) : Exchange :=
  (registry.Client.Get (registry.url "/v2/%s/blobs/%s" [repository, digest]) []).1

/-- The requests handed to the HTTP client in a trace, oldest first. -/
def sentRequests (tr : Trace) : List Request :=
  tr.filterMap (fun e =>
    match e with
    | Event.sent req => some req
    | _ => none)

/-- How often `Close` was called on the response body with identity `body`. -/
def closeCount (body : Nat) (tr : Trace) : Nat :=
  tr.count (Event.closed body)

/-- An error is a not-found status error in the shape `HasBlob` recognises: a `*url.Error`
whose `Err` is an `*HTTPStatusError` with response status 404. -/
def GoError.isWrapped404 : GoError → Bool
  | .urlError _ _ (.httpStatusError httpResp) => httpResp.StatusCode == 404
  | _ => false

/-- The initiate request as `initiateUpload` hands it to the client (blob.go:101-102):
`post` is what `http.NewRequest` built. -/
def initiateRequest (post : Request) (ctx : Context) : Request :=
  (post.setHeader "Content-Type" "application/octet-stream").WithContext ctx

/-- The address of the content transfer as `UploadBlob` computes it from the parsed
`Location` (blob.go:31-33). -/
def uploadAddress (locationURL : NetURL.URL) (digest : String) : NetURL.URL :=
  { locationURL with RawQuery := (locationURL.Query.Set "digest" digest).Encode }

/-- The upload request as `UploadBlob` hands it to the client (blob.go:41-44): `upload`
is what `http.NewRequest` built. -/
def uploadRequest (upload : Request) (token : String) (cxt : Context) : Request :=
  ((upload.setHeader "Content-Type" "application/octet-stream").setHeader "Authorization"
    (Fmt.Sprintf "Bearer %s" [token])).WithContext cxt

/-- Bytes that may stand in a query: not `?`, not `#`, and not a control byte, which
`url.Parse` refuses. -/
def plainByte (c : Char) : Prop :=
  c ≠ '?' ∧ c ≠ '#' ∧ (decide (c.toNat < 0x20) || c.toNat == 0x7f) = false

/-- A `Location` that is present, carries no query and no fragment and is written the way
Go prints it: the text is not empty, `url.Parse` accepts it, `String` of the parsed address
gives the same text back, the text holds no `?` and no `#`, it is not the lone `*`, and its
host does not end in a colon without a port (which `http.NewRequest` would drop).
`https://host/upload/abc` is one. -/
def plainLocation (location : String) : Bool :=
  match NetURL.Parse location with
  | .error _ => false
  | .ok u =>
    location ≠ "" && u.String = location && !Strings.contains '?' location.data
      && !Strings.contains '#' location.data && location ≠ "*"
      && removeEmptyPort u.Host = u.Host

/-! ## Concrete registries and transports -/

/-- A response with the given status, headers and body identity, and an empty body. -/
def responseWith (status : Int) (header : Header) (body : Nat) : Response :=
  { StatusCode := status, Header := header, Body := ⟨body, ""⟩, ContentLength := 0 }

/-- A registry at `https://registry.example` whose transport answers every request with
the same pair. -/
def constantRegistry (answer : Exchange) : Registry :=
  { URL := "https://registry.example", Client := ⟨fun _ => answer⟩ }

/-- A registry whose transport accepts an upload: it answers the POST with status 202,
`Location: https://host/upload/abc`, `Request-Token: tok123` and body 1, and every other
request with status 201 and body 2. -/
def uploadRegistry : Registry :=
  { URL := "https://registry.example"
    Client := ⟨fun req =>
      if req.Method = "POST" then
        (some (responseWith 202
          [("Location", "https://host/upload/abc"), ("Request-Token", "tok123")] 1), none)
      else (some (responseWith 201 [] 2), none)⟩ }

/-- A registry whose transport answers the POST with status 202 and `Request-Token: tok123`
but no `Location` header (body 1), and every other request with status 201 and body 2. -/
def noLocationRegistry : Registry :=
  { URL := "https://registry.example"
    Client := ⟨fun req =>
      if req.Method = "POST" then
        (some (responseWith 202 [("Request-Token", "tok123")] 1), none)
      else (some (responseWith 201 [] 2), none)⟩ }

/-! # Theorems -/

open NetURL NetHTTP

/-! ## Facts about `strings` -/

/-- Cutting at a byte that does not occur leaves the text whole. -/
theorem Strings.cut_of_not_mem (sep : Char) (a : List Char) (h : sep ∉ a) :
    Strings.cut sep a = (a, [], false) := by
  induction a with
  | nil => rfl
  | cons c cs ih =>
    have hc : c ≠ sep := fun e => h (by simp [e])
    have hcs : sep ∉ cs := fun e => h (by simp [e])
    simp [Strings.cut, hc, ih hcs]

/-- Cutting at the first occurrence of the separator. -/
theorem Strings.cut_append (sep : Char) (a b : List Char) (h : sep ∉ a) :
    Strings.cut sep (a ++ sep :: b) = (a, b, true) := by
  induction a with
  | nil => simp [Strings.cut]
  | cons c cs ih =>
    have hc : c ≠ sep := fun e => h (by simp [e])
    have hcs : sep ∉ cs := fun e => h (by simp [e])
    simp [Strings.cut, hc, ih hcs]

/-- `contains` is membership. -/
theorem Strings.contains_iff (sep : Char) (s : List Char) :
    Strings.contains sep s = true ↔ sep ∈ s := by
  unfold Strings.contains
  rw [List.any_eq_true]
  constructor
  · rintro ⟨c, hc, he⟩
    rw [beq_iff_eq] at he
    exact he ▸ hc
  · intro h
    exact ⟨sep, h, by simp⟩

/-- A text without the byte does not end in it. -/
theorem Strings.hasSuffix_of_not_mem (sep : Char) (s : List Char) (h : sep ∉ s) :
    Strings.hasSuffix s [sep] = false := by
  unfold Strings.hasSuffix
  cases hr : s.reverse with
  | nil => rfl
  | cons c cs =>
    have hc : c ∈ s := by
      have : c ∈ s.reverse := by rw [hr]; simp
      simpa using this
    have : c ≠ sep := fun e => h (e ▸ hc)
    simp [Strings.hasPrefix, this]

/-- A text whose last piece is not empty and lacks the byte does not end in it. -/
theorem Strings.hasSuffix_append_of_not_mem (sep : Char) (a q : List Char) (hq : q ≠ [])
    (h : sep ∉ q) : Strings.hasSuffix (a ++ sep :: q) [sep] = false := by
  unfold Strings.hasSuffix
  cases hr : q.reverse with
  | nil => simp at hr; exact absurd hr hq
  | cons c cs =>
    have hc : c ∈ q := by
      have : c ∈ q.reverse := by rw [hr]; simp
      simpa using this
    have : c ≠ sep := fun e => h (e ▸ hc)
    simp [Strings.hasPrefix, this, hr]

/-! ## Facts about `net/url` -/

/-- The scheme scan does not look past a byte that cannot stand in a scheme: text appended
behind such a byte stays in the remainder. -/
theorem getSchemeLoop_append (R T : List Char) (c0 : Char) (hT : ∃ t, T = c0 :: t)
    (h0 : isLetter c0 = false) (h1 : isDigit c0 = false)
    (h2 : c0 ≠ '+' ∧ c0 ≠ '-' ∧ c0 ≠ '.' ∧ c0 ≠ ':') :
    ∀ (rem scanned s r : List Char), getSchemeLoop R scanned rem = .ok (s, r) →
      (r = R ∧ s = [] ∧ getSchemeLoop (R ++ T) scanned (rem ++ T) = .ok ([], R ++ T))
        ∨ ((∃ pre, rem = pre ++ r) ∧
          getSchemeLoop (R ++ T) scanned (rem ++ T) = .ok (s, r ++ T)) := by
  obtain ⟨t, rfl⟩ := hT
  intro rem
  induction rem with
  | nil =>
    intro scanned s r h
    simp only [getSchemeLoop, Except.ok.injEq, Prod.mk.injEq] at h
    left
    refine ⟨h.2.symm, h.1.symm, ?_⟩
    simp [getSchemeLoop, h0, h1, h2]
  | cons c cs ih =>
    intro scanned s r h
    simp only [getSchemeLoop] at h
    simp only [List.cons_append, getSchemeLoop]
    split at h
    · rename_i hl
      simp only [hl, if_true]
      rcases ih _ _ _ h with h' | ⟨⟨pre, hpre⟩, h'⟩
      · exact Or.inl h'
      · exact Or.inr ⟨⟨c :: pre, by simp [hpre]⟩, h'⟩
    · rename_i hl
      simp only [hl]
      split at h
      · rename_i hd
        simp only [hd, if_true]
        split at h
        · rename_i hs
          simp only [hs, if_true]
          simp only [Except.ok.injEq, Prod.mk.injEq] at h
          exact Or.inl ⟨h.2.symm, h.1.symm, rfl⟩
        · rename_i hs
          simp only [hs, if_false]
          rcases ih _ _ _ h with h' | ⟨⟨pre, hpre⟩, h'⟩
          · exact Or.inl h'
          · exact Or.inr ⟨⟨c :: pre, by simp [hpre]⟩, h'⟩
      · rename_i hd
        simp only [hd]
        split at h
        · rename_i hcol
          simp only [hcol, if_true]
          split at h
          · cases h
          · rename_i hs
            simp only [hs, if_false]
            simp only [Except.ok.injEq, Prod.mk.injEq] at h
            right
            refine ⟨⟨[c], by rw [← h.2, hcol]; rfl⟩, ?_⟩
            rw [h.1, h.2]
            simp
        · rename_i hcol
          simp only [hcol]
          simp only [Except.ok.injEq, Prod.mk.injEq] at h
          exact Or.inl ⟨h.2.symm, h.1.symm, rfl⟩

/-- A query appended to an address does not change its scheme. -/
theorem getScheme_append_query (R q s r : List Char) (h : getScheme R = .ok (s, r)) :
    getScheme (R ++ '?' :: q) = .ok (s, r ++ '?' :: q) ∧ ∀ c ∈ r, c ∈ R := by
  unfold getScheme at h ⊢
  rcases getSchemeLoop_append R ('?' :: q) '?' ⟨q, rfl⟩ (by decide) (by decide) (by decide)
    R [] s r h with ⟨hr, hs, h'⟩ | ⟨⟨pre, hpre⟩, h'⟩
  · rw [hr, hs]
    exact ⟨h', fun c hc => hc⟩
  · refine ⟨h', fun c hc => ?_⟩
    rw [hpre]
    exact List.mem_append_right _ hc

/-- `setPath` leaves the query alone. -/
theorem setPath_rawQuery (url u : URL) (p q : String) (h : URL.setPath url p = .ok u) :
    URL.setPath { url with RawQuery := q } p = .ok { u with RawQuery := q } := by
  unfold URL.setPath at h ⊢
  cases hu : unescape p Encoding.encodePath with
  | error e => rw [hu] at h; cases h
  | ok path =>
    rw [hu] at h
    simp only [] at h ⊢
    split at h <;> rename_i hp
    · simp only [hp, if_true]
      cases h
      rfl
    · simp only [hp, if_false]
      cases h
      rfl

/-- `setPath` keeps query and fragment. -/
theorem setPath_fields (url u : URL) (p : String) (h : URL.setPath url p = .ok u) :
    u.RawQuery = url.RawQuery ∧ u.ForceQuery = url.ForceQuery ∧ u.Fragment = url.Fragment := by
  unfold URL.setPath at h
  cases hu : unescape p Encoding.encodePath with
  | error e => rw [hu] at h; cases h
  | ok path =>
    rw [hu] at h
    simp only [] at h
    split at h <;> (cases h; exact ⟨rfl, rfl, rfl⟩)

/-- `parseAfterQuery` carries the query through unchanged. -/
theorem parseAfterQuery_rawQuery (url u : URL) (rest : List Char) (q : String)
    (h : parseAfterQuery url rest = .ok u) :
    parseAfterQuery { url with RawQuery := q } rest = .ok { u with RawQuery := q } := by
  unfold parseAfterQuery at h ⊢
  simp only [] at h ⊢
  split at h <;> rename_i h1
  · rw [if_pos h1]
    cases h
    rfl
  · rw [if_neg h1]
    split at h <;> rename_i h2
    · cases h
    · rw [if_neg h2]
      split at h <;> rename_i h3
      · rw [if_pos h3]
        cases ha : parseAuthority (Strings.cut '/' (List.drop 2 rest)).1 with
        | error e => rw [ha] at h; cases h
        | ok uh =>
          rw [ha] at h
          exact setPath_rawQuery _ _ _ _ h
      · rw [if_neg h3]
        split at h <;> rename_i h4
        · rw [if_pos h4]
          exact setPath_rawQuery _ _ _ _ h
        · rw [if_neg h4]
          exact setPath_rawQuery _ _ _ _ h

/-- `parseAfterQuery` keeps query and fragment. -/
theorem parseAfterQuery_fields (url u : URL) (rest : List Char)
    (h : parseAfterQuery url rest = .ok u) :
    u.RawQuery = url.RawQuery ∧ u.ForceQuery = url.ForceQuery ∧ u.Fragment = url.Fragment := by
  unfold parseAfterQuery at h
  simp only [] at h
  split at h
  · cases h
    exact ⟨rfl, rfl, rfl⟩
  · split at h
    · cases h
    · split at h
      · cases ha : parseAuthority (Strings.cut '/' (List.drop 2 rest)).1 with
        | error e => rw [ha] at h; cases h
        | ok uh =>
          obtain ⟨user, host⟩ := uh
          rw [ha] at h
          exact setPath_fields { url with User := user, Host := host } _ _ h
      · split at h
        · exact setPath_fields { url with OmitHost := true } _ _ h
        · exact setPath_fields _ _ _ h

/-- Parsing an address that has no `?`, with a query appended: the same address with that
query. -/
theorem parse_append_query (R q : List Char) (u : URL) (hR : '?' ∉ R) (hstar : R ≠ ['*'])
    (hq : q ≠ []) (hq1 : '?' ∉ q) (hctl : stringContainsCTLByte q = false)
    (h : parse R = .ok u) :
    parse (R ++ '?' :: q) = .ok { u with RawQuery := ⟨q⟩ }
      ∧ u.RawQuery = "" ∧ u.ForceQuery = false ∧ u.Fragment = "" := by
  unfold parse at h ⊢
  have hctlR : stringContainsCTLByte R = false := by
    cases hc : stringContainsCTLByte R with
    | false => rfl
    | true => rw [hc] at h; simp at h
  have hctl2 : stringContainsCTLByte (R ++ '?' :: q) = false := by
    unfold stringContainsCTLByte at hctlR hctl ⊢
    rw [List.any_append, List.any_cons, hctlR, hctl]
    decide
  have hstar2 : R ++ '?' :: q ≠ ['*'] := by
    intro e
    cases R with
    | nil => simp at e
    | cons c cs => simp at e
  rw [hctlR] at h
  rw [hctl2]
  simp only [hstar, hstar2, if_false, Bool.false_eq_true] at h ⊢
  cases hs : getScheme R with
  | error e => rw [hs] at h; cases h
  | ok sr =>
    obtain ⟨s, r⟩ := sr
    rw [hs] at h
    obtain ⟨hs2, hsub⟩ := getScheme_append_query R q s r hs
    have hr : '?' ∉ r := fun hc => hR (hsub _ hc)
    rw [hs2]
    simp only [Strings.hasSuffix_of_not_mem '?' r hr,
      Strings.hasSuffix_append_of_not_mem '?' r q hq hq1, Bool.false_and,
      Strings.cut_of_not_mem '?' r hr, Strings.cut_append '?' r q hr, if_false,
      Bool.false_eq_true] at h ⊢
    refine ⟨parseAfterQuery_rawQuery _ _ _ ⟨q⟩ h, ?_⟩
    exact parseAfterQuery_fields _ _ _ h

/-- Statement of `parse_append_query` for `url.Parse`, on an address without `?` and `#`. -/
theorem Parse_append_query (L q : String) (u : URL) (hL : '?' ∉ L.data) (hLf : '#' ∉ L.data)
    (hstar : L ≠ "*") (hq : q.data ≠ []) (hq1 : '?' ∉ q.data) (hq2 : '#' ∉ q.data)
    (hctl : stringContainsCTLByte q.data = false) (h : NetURL.Parse L = .ok u) :
    NetURL.Parse (L ++ "?" ++ q) = .ok { u with RawQuery := q }
      ∧ u.RawQuery = "" ∧ u.ForceQuery = false ∧ u.Fragment = "" := by
  unfold NetURL.Parse at h ⊢
  have hdata : (L ++ "?" ++ q).data = L.data ++ '?' :: q.data := by
    simp [String.data_append]
  have hf2 : '#' ∉ L.data ++ '?' :: q.data := by
    simp only [List.mem_append, List.mem_cons, not_or]
    exact ⟨hLf, by decide, hq2⟩
  have hstar1 : L.data ≠ ['*'] := by
    intro e
    apply hstar
    exact String.ext e
  rw [hdata, Strings.cut_of_not_mem '#' _ hf2]
  rw [Strings.cut_of_not_mem '#' _ hLf] at h
  simp only [] at h ⊢
  cases hp : parse L.data with
  | error e => rw [hp] at h; cases h
  | ok u2 =>
    rw [hp] at h
    simp only [if_true, Except.ok.injEq] at h
    subst h
    obtain ⟨h1, h2⟩ := parse_append_query L.data q.data u2 hL hstar1 hq hq1 hctl hp
    rw [h1]
    exact ⟨rfl, h2⟩

/-- Printing an address that had no query, with a query set: the query is appended. -/
theorem URL_String_with_query (u : URL) (q : String) (h1 : u.RawQuery = "")
    (h2 : u.ForceQuery = false) (h3 : u.Fragment = "") (hq : q ≠ "") :
    URL.String { u with RawQuery := q } = u.String ++ "?" ++ q := by
  have hb : URL.stringBeforeQuery { u with RawQuery := q } = u.stringBeforeQuery := rfl
  unfold URL.String
  simp only []
  rw [hb, h1, h2, h3]
  simp [hq, String.append_assoc]

/-- Bytes are equal when their codes are. -/
theorem Char.eq_iff_toNat (c d : Char) : c = d ↔ c.toNat = d.toNat := by
  constructor
  · intro h; rw [h]
  · intro h
    rw [← Char.ofNat_toNat c, ← Char.ofNat_toNat d, h]

/-- Hex digits are plain bytes. -/
theorem upperhex_plainByte (n : Nat) (h : n < 16) : plainByte (upperhex n) := by
  unfold plainByte
  revert n
  decide

/-- A byte that a query component keeps unescaped is a plain byte. -/
theorem shouldEscape_query_plainByte (c : Char)
    (h : shouldEscape c Encoding.encodeQueryComponent = false) : plainByte c := by
  unfold plainByte
  unfold shouldEscape at h
  simp only [Char.eq_iff_toNat] at h ⊢
  simp [isAlnum] at h ⊢
  have e1 : ('?' : Char).toNat = 63 := rfl
  have e2 : ('#' : Char).toNat = 35 := rfl
  rw [Char.eq_iff_toNat c '?', Char.eq_iff_toNat c '#', e1, e2]
  omega

/-- A query-escaped text holds plain bytes only. -/
theorem escapeBytes_query_plainByte (l : List Char) :
    ∀ c ∈ escapeBytes Encoding.encodeQueryComponent l, plainByte c := by
  induction l with
  | nil => simp [escapeBytes]
  | cons a as ih =>
    intro c hc
    unfold escapeBytes at hc
    split at hc
    · simp only [List.mem_cons] at hc
      rcases hc with rfl | hc
      · unfold plainByte; decide
      · exact ih c hc
    · split at hc
      · simp only [List.mem_cons] at hc
        rcases hc with rfl | rfl | rfl | hc
        · unfold plainByte; decide
        · exact upperhex_plainByte _ (Nat.mod_lt _ (by decide))
        · exact upperhex_plainByte _ (Nat.mod_lt _ (by decide))
        · exact ih c hc
      · rename_i hesc
        simp only [List.mem_cons] at hc
        rcases hc with rfl | hc
        · exact shouldEscape_query_plainByte _ (by simpa using hesc)
        · exact ih c hc

/-- The query `digest=...` that `UploadBlob` sets is not empty and holds plain bytes only. -/
theorem digestQuery_plain (digest : String) :
    ("digest=" ++ QueryEscape digest).data ≠ []
      ∧ '?' ∉ ("digest=" ++ QueryEscape digest).data
      ∧ '#' ∉ ("digest=" ++ QueryEscape digest).data
      ∧ stringContainsCTLByte ("digest=" ++ QueryEscape digest).data = false := by
  have hall : ∀ c ∈ ("digest=" ++ QueryEscape digest).data, plainByte c := by
    intro c hc
    rw [String.data_append, List.mem_append] at hc
    rcases hc with hc | hc
    · have : ∀ d ∈ "digest=".data, plainByte d := by
        unfold plainByte
        decide
      exact this c hc
    · exact escapeBytes_query_plainByte digest.data c hc
  refine ⟨?_, ?_, ?_, ?_⟩
  · rw [String.data_append]
    intro h
    have := congrArg List.length h
    simp at this
  · intro h
    exact (hall _ h).1 rfl
  · intro h
    exact (hall _ h).2.1 rfl
  · unfold stringContainsCTLByte
    rw [List.any_eq_false]
    intro c hc
    rw [(hall c hc).2.2]
    decide

/-- An address without query has no query values. -/
theorem Query_of_no_query (u : URL) (h : u.RawQuery = "") : u.Query = [] := by
  unfold URL.Query
  rw [h]
  rfl

/-- The encoded query of the single value `digest`. -/
theorem Encode_digest (digest : String) :
    Values.Encode (Values.Set [] "digest" digest) = "digest=" ++ QueryEscape digest := by
  have hk : QueryEscape "digest" = "digest" := by decide
  apply String.ext
  simp [Values.Encode, Values.Set, Values.sorted, Values.insertSorted, Values.encodeEntry, hk,
    String.data_append]

/-- The address of the content transfer when the location has no query. -/
theorem uploadAddress_of_no_query (u : URL) (digest : String) (h : u.RawQuery = "") :
    uploadAddress u digest = { u with RawQuery := "digest=" ++ QueryEscape digest } := by
  unfold uploadAddress
  rw [Query_of_no_query u h, Encode_digest]

/-! ## Facts about `fmt`, headers, the client and the trace -/

/-- The `Authorization` value. -/
theorem Sprintf_bearer (token : String) :
    Fmt.Sprintf "Bearer %s" [token] = "Bearer " ++ token := by
  apply String.ext
  simp [Fmt.Sprintf, Fmt.sprintf, String.data_append]

/-- The `Authorization` header of the upload request. -/
theorem Header_get_authorization (v w : String) :
    Header.Get (Header.Set (Header.Set [] "Content-Type" v) "Authorization" w) "Authorization"
      = w := by
  simp [Header.Set, Header.Get]

/-- The `Content-Type` header of the upload request. -/
theorem Header_get_content_type (v w : String) :
    Header.Get (Header.Set (Header.Set [] "Content-Type" v) "Authorization" w) "Content-Type"
      = v := by
  simp [Header.Set, Header.Get]

/-- What a request built by `http.NewRequest` looks like. -/
theorem NewRequest_ok (method url : String) (body : Option String) (req : Request)
    (hm : method ≠ "") (h : NewRequest method url body = .ok req) :
    ∃ u, NetURL.Parse url = .ok u ∧
      req = { Method := method
              URL := { u with Host := removeEmptyPort u.Host }
              Header := []
              Body := body
              Host := removeEmptyPort u.Host
              ctx := Context.background } := by
  unfold NewRequest at h
  simp only [hm, if_false] at h
  split at h
  · cases h
  · cases hp : NetURL.Parse url with
    | error e => rw [hp] at h; cases h
    | ok u =>
      rw [hp] at h
      simp only [Except.ok.injEq] at h
      exact ⟨u, rfl, h.symm⟩

/-- What `Head` returns does not depend on the trace. -/
theorem Client.Head_fst (c : Client) (url : String) (tr : Trace) :
    (c.Head url tr).1 = (c.Head url []).1 := by
  unfold Client.Head Client.Do
  cases NewRequest "HEAD" url none <;> rfl

/-- What `Get` returns does not depend on the trace. -/
theorem Client.Get_fst (c : Client) (url : String) (tr : Trace) :
    (c.Get url tr).1 = (c.Get url []).1 := by
  unfold Client.Get Client.Do
  cases NewRequest "GET" url none <;> rfl

/-- `Get` closes nothing. -/
theorem Client.Get_closeCount (c : Client) (url : String) (tr : Trace) (body : Nat) :
    closeCount body (c.Get url tr).2 = closeCount body tr := by
  unfold Client.Get Client.Do closeCount
  cases NewRequest "GET" url none <;> simp [List.count_append, List.count_cons]

/-- A log line is no request. -/
theorem sentRequests_Logf (registry : Registry) (f : String) (a : List String) (tr : Trace) :
    sentRequests (registry.Logf f a tr) = sentRequests tr := by
  simp [Registry.Logf, sentRequests, List.filterMap_append]

/-- The requests of a single `sent` event. -/
theorem sentRequests_sent (req : Request) : sentRequests [Event.sent req] = [req] := rfl

/-- The requests of a `sent` event followed by a `closed` event. -/
theorem sentRequests_sent_closed (req : Request) (body : Nat) :
    sentRequests [Event.sent req, Event.closed body] = [req] := rfl

/-- The requests of a trace in two parts. -/
theorem sentRequests_append (tr1 tr2 : Trace) :
    sentRequests (tr1 ++ tr2) = sentRequests tr1 ++ sentRequests tr2 := by
  simp [sentRequests, List.filterMap_append]

/-- Every pair `(resp, err)` is the outcome of the HEAD request for some transport. -/
theorem headExchange_constant (answer : Exchange) :
    (constantRegistry answer).headExchange "repo" "sha256:abc" = answer := by
  rfl

/-! ## `HasBlob` and `BlobMetadata` -/

/-- The characterisation of `HasBlob` by the outcome of its HEAD request. -/
theorem HasBlob_result (registry : Registry) (repository digest : String) (tr : Trace) :
    (registry.HasBlob repository digest tr).1 =
      match registry.headExchange repository digest with
      | (some resp, none) => .ret (resp.StatusCode == 200, none)
      | (none, none) => .nilPanic
      | (_, some err) =>
        if err.isWrapped404 then .ret (false, none) else .ret (false, some err) := by
  unfold Registry.HasBlob Registry.headExchange
  simp only []
  rw [← Client.Head_fst registry.Client _ (registry.Logf
    "registry.blob.check url=%s repository=%s digest=%s"
    [registry.url "/v2/%s/blobs/%s" [repository, digest], repository, digest] tr)]
  rcases registry.Client.Head _ _ with ⟨⟨resp, err⟩, tr1⟩
  cases err with
  | none => cases resp <;> rfl
  | some e =>
    cases resp <;> cases e <;> try rfl
    all_goals (rename_i inner; cases inner <;> try rfl)
    all_goals (simp only [GoError.isWrapped404, beq_iff_eq]; split <;> rfl)

/-- The characterisation of `BlobMetadata` by the outcome of its HEAD request. -/
theorem BlobMetadata_result (registry : Registry) (repository digest : String) (tr : Trace) :
    (registry.BlobMetadata repository digest tr).1 =
      match registry.headExchange repository digest with
      | (_, some err) => .ret ({}, some err)
      | (some resp, none) => .ret ({ Digest := digest, Size := resp.ContentLength }, none)
      | (none, none) => .nilPanic := by
  unfold Registry.BlobMetadata Registry.headExchange
  simp only []
  rw [← Client.Head_fst registry.Client _ (registry.Logf
    "registry.blob.check url=%s repository=%s digest=%s"
    [registry.url "/v2/%s/blobs/%s" [repository, digest], repository, digest] tr)]
  rcases registry.Client.Head _ _ with ⟨⟨resp, err⟩, tr1⟩
  cases err <;> cases resp <;> rfl

/-- C1. For every repository, digest and transport, `HasBlob` returns `(true, nil)` if and
only if the HEAD request came back as a response with no error whose status code is 200. -/
theorem HasBlob_true_iff (registry : Registry) (repository digest : String) (tr : Trace) :
    (registry.HasBlob repository digest tr).1 = .ret (true, none) ↔
      ∃ resp, registry.headExchange repository digest = (some resp, none)
        ∧ resp.StatusCode = 200 := by
  rw [HasBlob_result]
  rcases registry.headExchange repository digest with ⟨resp, err⟩
  cases err with
  | none =>
    cases resp with
    | none => simp
    | some r => simp
  | some e =>
    constructor
    · intro h
      exfalso
      simp only [] at h
      split at h <;> simp at h
    · rintro ⟨r, h, -⟩
      simp at h

/-- C2, as amended. `HasBlob` returns `(false, nil)` if and only if the HEAD request came
back as a response with no error whose status is not 200, or as a `url.Error` wrapping an
`HTTPStatusError` whose response status is 404; for every other transport error it
returns `(false, err)` with `err` the transport's error, never `(false, nil)`. -/
theorem HasBlob_false_nil_iff (registry : Registry) (repository digest : String) (tr : Trace) :
    ((registry.HasBlob repository digest tr).1 = .ret (false, none) ↔
      (∃ resp, registry.headExchange repository digest = (some resp, none)
          ∧ resp.StatusCode ≠ 200)
        ∨ ∃ resp err, registry.headExchange repository digest = (resp, some err)
          ∧ err.isWrapped404 = true)
      ∧ ∀ resp err, registry.headExchange repository digest = (resp, some err) →
          err.isWrapped404 = false →
          (registry.HasBlob repository digest tr).1 = .ret (false, some err) := by
  rw [HasBlob_result]
  rcases registry.headExchange repository digest with ⟨resp, err⟩
  cases err with
  | none =>
    cases resp with
    | none => simp
    | some r => simp
  | some e =>
    refine ⟨?_, ?_⟩
    · simp only []
      constructor
      · intro h
        refine Or.inr ⟨resp, e, rfl, ?_⟩
        cases h404 : e.isWrapped404
        · rw [h404] at h
          simp at h
        · rfl
      · rintro (⟨r, h, -⟩ | ⟨r, e2, h, h404⟩)
        · simp at h
        · simp only [Prod.mk.injEq, Option.some.injEq] at h
          rw [h.2, h404]
          rfl
    · intro r e2 h h404
      simp only [Prod.mk.injEq, Option.some.injEq] at h
      simp only []
      rw [h.2, h404]
      rfl

/-- C2, the claim as stated fails: the transport hands back a plain response with status
500 and no error, and `HasBlob` returns `(false, nil)`. -/
theorem HasBlob_plain_500_is_false_nil :
    (constantRegistry (some (responseWith 500 [] 1), none)).headExchange "repo" "sha256:abc"
        = (some (responseWith 500 [] 1), none)
      ∧ (responseWith 500 [] 1).StatusCode = 500
      ∧ ((constantRegistry (some (responseWith 500 [] 1), none)).HasBlob
          "repo" "sha256:abc" []).1 = .ret (false, none) := by
  decide

/-- C6. `BlobMetadata` returns the descriptor of the requested digest and the response's
`ContentLength` with a nil error whenever the HEAD request reports no error, whatever the
response says otherwise; it returns the empty descriptor and the transport's error when
there is one; on a 404 status error, where `HasBlob` returns `(false, nil)`, its error is
not nil. -/
theorem BlobMetadata_descriptor_or_error (registry : Registry) (repository digest : String)
    (tr : Trace) :
    (∀ resp, registry.headExchange repository digest = (some resp, none) →
        (registry.BlobMetadata repository digest tr).1
          = .ret ({ Digest := digest, Size := resp.ContentLength }, none))
      ∧ (∀ resp err, registry.headExchange repository digest = (resp, some err) →
        (registry.BlobMetadata repository digest tr).1 = .ret ({}, some err))
      ∧ ∀ resp err, registry.headExchange repository digest = (resp, some err) →
        err.isWrapped404 = true →
        (registry.HasBlob repository digest tr).1 = .ret (false, none)
          ∧ (registry.BlobMetadata repository digest tr).1 = .ret ({}, some err) := by
  refine ⟨?_, ?_, ?_⟩
  · intro resp h
    rw [BlobMetadata_result, h]
  · intro resp err h
    rw [BlobMetadata_result, h]
    cases resp <;> rfl
  · intro resp err h h404
    refine ⟨?_, by rw [BlobMetadata_result, h]; cases resp <;> rfl⟩
    exact (HasBlob_false_nil_iff registry repository digest tr).1.2 (Or.inr ⟨resp, err, h, h404⟩)

/-- C6 at a concrete input: a 301 response that declares 42 bytes gives the descriptor
of the requested digest with size 42. -/
theorem BlobMetadata_descriptor_example :
    ((constantRegistry (some ⟨301, [("Docker-Content-Digest", "sha256:other")], ⟨1, ""⟩, 42⟩,
        none)).BlobMetadata "repo" "sha256:abc" []).1
      = .ret ({ Digest := "sha256:abc", Size := 42 }, none) :=
  (BlobMetadata_descriptor_or_error
    (constantRegistry (some ⟨301, [("Docker-Content-Digest", "sha256:other")], ⟨1, ""⟩, 42⟩,
      none)) "repo" "sha256:abc" []).1
    ⟨301, [("Docker-Content-Digest", "sha256:other")], ⟨1, ""⟩, 42⟩ (by decide)

/-! ## `DownloadBlob` -/

/-- C9. `DownloadBlob` returns the body of the response and a nil error whenever the GET
request reports no error, whatever the status code; it returns `(nil, err)` exactly when
the transport reports an error; and it never closes a body. -/
theorem DownloadBlob_stream_or_error (registry : Registry) (repository digest : String)
    (tr : Trace) :
    (∀ resp, registry.getExchange repository digest = (some resp, none) →
        (registry.DownloadBlob repository digest tr).1 = .ret (some resp.Body, none))
      ∧ (∀ resp err, registry.getExchange repository digest = (resp, some err) →
        (registry.DownloadBlob repository digest tr).1 = .ret (none, some err))
      ∧ ((∃ err, (registry.DownloadBlob repository digest tr).1 = .ret (none, some err)) ↔
        ∃ resp err, registry.getExchange repository digest = (resp, some err))
      ∧ ∀ body, closeCount body (registry.DownloadBlob repository digest tr).2
          = closeCount body tr := by
  have key : (registry.DownloadBlob repository digest tr).1 =
      match registry.getExchange repository digest with
      | (_, some err) => .ret (none, some err)
      | (some resp, none) => .ret (some resp.Body, none)
      | (none, none) => .nilPanic := by
    unfold Registry.DownloadBlob Registry.getExchange
    simp only []
    rw [← Client.Get_fst registry.Client _ (registry.Logf
      "registry.blob.download url=%s repository=%s digest=%s"
      [registry.url "/v2/%s/blobs/%s" [repository, digest], repository, digest] tr)]
    rcases registry.Client.Get _ _ with ⟨⟨resp, err⟩, tr1⟩
    cases err <;> cases resp <;> rfl
  refine ⟨?_, ?_, ?_, ?_⟩
  · intro resp h
    rw [key, h]
  · intro resp err h
    rw [key, h]
    cases resp <;> rfl
  · rw [key]
    rcases registry.getExchange repository digest with ⟨resp, err⟩
    cases err <;> cases resp <;> simp
  · intro body
    have hlog : closeCount body (registry.Logf
        "registry.blob.download url=%s repository=%s digest=%s"
        [registry.url "/v2/%s/blobs/%s" [repository, digest], repository, digest] tr)
          = closeCount body tr := by
      simp [Registry.Logf, closeCount, List.count_append, List.count_cons]
    have hget := Client.Get_closeCount registry.Client
      (registry.url "/v2/%s/blobs/%s" [repository, digest]) (registry.Logf
        "registry.blob.download url=%s repository=%s digest=%s"
        [registry.url "/v2/%s/blobs/%s" [repository, digest], repository, digest] tr) body
    rw [hlog] at hget
    unfold Registry.DownloadBlob
    simp only []
    rcases hx : registry.Client.Get _ _ with ⟨⟨resp, err⟩, tr1⟩
    rw [hx] at hget
    cases err <;> cases resp <;> exact hget

/-- C9 at concrete inputs: a 500 response with body `E` is handed on as it is. -/
theorem DownloadBlob_500_example :
    ((constantRegistry (some ⟨500, [], ⟨1, "E"⟩, 1⟩, none)).DownloadBlob
        "repo" "sha256:abc" []).1 = .ret (some ⟨1, "E"⟩, none) :=
  (DownloadBlob_stream_or_error (constantRegistry (some ⟨500, [], ⟨1, "E"⟩, 1⟩, none))
    "repo" "sha256:abc" []).1 ⟨500, [], ⟨1, "E"⟩, 1⟩ (by decide)

/-! ## The two stages of `UploadBlob` -/

/-- `initiateUpload` when its request cannot be built. -/
theorem initiateUpload_build_error (registry : Registry) (ctx : Context)
    (repository : String) (tr : Trace) (err : GoError)
    (hpost : NewRequest "POST" (registry.url "/v2/%s/blobs/uploads/" [repository]) none
      = .error err) :
    registry.initiateUpload ctx repository tr =
      (.ret (none, "", some err),
        registry.Logf "registry.layer.initiate-upload url=%s repository=%s"
          [registry.url "/v2/%s/blobs/uploads/" [repository], repository] tr) := by
  unfold Registry.initiateUpload
  simp only [hpost]

/-- `initiateUpload` when the transport reports an error. -/
theorem initiateUpload_transport_error (registry : Registry) (ctx : Context)
    (repository : String) (tr : Trace) (post : Request) (resp : Option Response)
    (err : GoError)
    (hpost : NewRequest "POST" (registry.url "/v2/%s/blobs/uploads/" [repository]) none
      = .ok post)
    (hdo : registry.Client.transport
      (initiateRequest post ctx)
        = (resp, some err)) :
    registry.initiateUpload ctx repository tr =
      (.ret (none, "", some err),
        registry.Logf "registry.layer.initiate-upload url=%s repository=%s"
          [registry.url "/v2/%s/blobs/uploads/" [repository], repository] tr
          ++ [Event.sent
            (initiateRequest post ctx)]) := by
  unfold Registry.initiateUpload Client.Do initiateRequest at *
  simp only [hpost, hdo]

/-- `initiateUpload` when the transport hands back neither response nor error. -/
theorem initiateUpload_nil_response (registry : Registry) (ctx : Context)
    (repository : String) (tr : Trace) (post : Request)
    (hpost : NewRequest "POST" (registry.url "/v2/%s/blobs/uploads/" [repository]) none
      = .ok post)
    (hdo : registry.Client.transport
      (initiateRequest post ctx)
        = (none, none)) :
    registry.initiateUpload ctx repository tr =
      (.nilPanic,
        registry.Logf "registry.layer.initiate-upload url=%s repository=%s"
          [registry.url "/v2/%s/blobs/uploads/" [repository], repository] tr
          ++ [Event.sent
            (initiateRequest post ctx)]) := by
  unfold Registry.initiateUpload Client.Do initiateRequest at *
  simp only [hpost, hdo]

/-- `initiateUpload` when the `Location` header does not parse. -/
theorem initiateUpload_parse_error (registry : Registry) (ctx : Context)
    (repository : String) (tr : Trace) (post : Request) (resp : Response) (err : GoError)
    (hpost : NewRequest "POST" (registry.url "/v2/%s/blobs/uploads/" [repository]) none
      = .ok post)
    (hdo : registry.Client.transport
      (initiateRequest post ctx)
        = (some resp, none))
    (hloc : NetURL.Parse (resp.Header.Get "Location") = .error err) :
    registry.initiateUpload ctx repository tr =
      (.ret (none, resp.Header.Get "Request-Token", some err),
        registry.Logf "registry.layer.initiate-upload url=%s repository=%s"
          [registry.url "/v2/%s/blobs/uploads/" [repository], repository] tr
          ++ [Event.sent
            (initiateRequest post ctx),
            Event.closed resp.Body.id]) := by
  unfold Registry.initiateUpload Client.Do Body.Close initiateRequest at *
  simp only [hpost, hdo, hloc, List.append_assoc, List.singleton_append]

/-- `initiateUpload` when the exchange succeeds and the `Location` header parses. -/
theorem initiateUpload_ok (registry : Registry) (ctx : Context)
    (repository : String) (tr : Trace) (post : Request) (resp : Response)
    (locationURL : URL)
    (hpost : NewRequest "POST" (registry.url "/v2/%s/blobs/uploads/" [repository]) none
      = .ok post)
    (hdo : registry.Client.transport
      (initiateRequest post ctx)
        = (some resp, none))
    (hloc : NetURL.Parse (resp.Header.Get "Location") = .ok locationURL) :
    registry.initiateUpload ctx repository tr =
      (.ret (some locationURL, resp.Header.Get "Request-Token", none),
        registry.Logf "registry.layer.initiate-upload url=%s repository=%s"
          [registry.url "/v2/%s/blobs/uploads/" [repository], repository] tr
          ++ [Event.sent
            (initiateRequest post ctx),
            Event.closed resp.Body.id]) := by
  unfold Registry.initiateUpload Client.Do Body.Close initiateRequest at *
  simp only [hpost, hdo, hloc, List.append_assoc, List.singleton_append]

/-- The content transfer stage of `UploadBlob`, after a successful initiate stage. -/
theorem UploadBlob_after_initiate (registry : Registry) (cxt : Context)
    (repository digest : String) (content : Option String) (tr tr1 : Trace)
    (locationURL : URL) (token : String)
    (h : registry.initiateUpload cxt repository tr
      = (.ret (some locationURL, token, none), tr1)) :
    registry.UploadBlob cxt repository digest content tr =
      match NewRequest "PUT" (uploadAddress locationURL digest).String content with
      | .error err =>
        (.ret (some err), registry.Logf "registry.blob.upload url=%s repository=%s digest=%s"
          [(uploadAddress locationURL digest).String, repository, digest] tr1)
      | .ok upload =>
        (.ret (registry.Client.transport (uploadRequest upload token cxt)).2,
          registry.Logf "registry.blob.upload url=%s repository=%s digest=%s"
            [(uploadAddress locationURL digest).String, repository, digest] tr1
            ++ [Event.sent (uploadRequest upload token cxt)]) := by
  unfold Registry.UploadBlob
  rw [h]
  simp only [uploadAddress, uploadRequest, Client.Do]

/-! ## `UploadBlob` -/

/-- C8. When the initiate stage of `UploadBlob` fails (its request cannot be built, the
transport reports an error for the POST, or the `Location` header does not parse as a
URL), `UploadBlob` returns that error unchanged, and the only request that may have been
issued is the initiate POST: no PUT is sent. -/
theorem UploadBlob_initiate_failure (registry : Registry) (cxt : Context)
    (repository digest : String) (content : Option String) (tr : Trace) :
    (∀ err, NewRequest "POST" (registry.url "/v2/%s/blobs/uploads/" [repository]) none
          = .error err →
        (registry.UploadBlob cxt repository digest content tr).1 = .ret (some err)
          ∧ sentRequests (registry.UploadBlob cxt repository digest content tr).2
            = sentRequests tr)
      ∧ ∀ post, NewRequest "POST" (registry.url "/v2/%s/blobs/uploads/" [repository]) none
          = .ok post →
        post.Method = "POST"
          ∧ (∀ resp err, registry.Client.transport
                (initiateRequest post cxt)
                  = (resp, some err) →
              (registry.UploadBlob cxt repository digest content tr).1 = .ret (some err)
                ∧ sentRequests (registry.UploadBlob cxt repository digest content tr).2
                  = sentRequests tr ++ [initiateRequest post cxt])
          ∧ ∀ resp err, registry.Client.transport
                (initiateRequest post cxt)
                  = (some resp, none) →
              NetURL.Parse (resp.Header.Get "Location") = .error err →
              (registry.UploadBlob cxt repository digest content tr).1 = .ret (some err)
                ∧ sentRequests (registry.UploadBlob cxt repository digest content tr).2
                  = sentRequests tr ++ [initiateRequest post cxt] := by
  refine ⟨?_, ?_⟩
  · intro err hpost
    unfold Registry.UploadBlob
    rw [initiateUpload_build_error registry cxt repository tr err hpost]
    exact ⟨rfl, sentRequests_Logf registry _ _ _⟩
  · intro post hpost
    refine ⟨?_, ?_, ?_⟩
    · obtain ⟨u, -, hreq⟩ := NewRequest_ok "POST" _ none post (by decide) hpost
      rw [hreq]
    · intro resp err hdo
      unfold Registry.UploadBlob
      rw [initiateUpload_transport_error registry cxt repository tr post resp err hpost hdo]
      refine ⟨rfl, ?_⟩
      simp only []
      rw [sentRequests_append, sentRequests_Logf]
      rfl
    · intro resp err hdo hloc
      unfold Registry.UploadBlob
      rw [initiateUpload_parse_error registry cxt repository tr post resp err hpost hdo hloc]
      refine ⟨rfl, ?_⟩
      simp only []
      rw [sentRequests_append, sentRequests_Logf]
      rfl

/-- C8 at a concrete input: the transport fails the POST, `UploadBlob` returns that
error and the POST is the only request. -/
theorem UploadBlob_initiate_failure_example :
    ((constantRegistry (none, some (.other "connection refused"))).UploadBlob (.derived 7)
        "repo" "sha256:abc" (some "data") []).1 = .ret (some (.other "connection refused")) :=
  (((UploadBlob_initiate_failure (constantRegistry (none, some (.other "connection refused")))
    (.derived 7) "repo" "sha256:abc" (some "data") []).2
    { Method := "POST"
      URL := { Scheme := "https", Host := "registry.example",
               Path := "/v2/repo/blobs/uploads/" }
      Header := []
      Body := none
      Host := "registry.example"
      ctx := Context.background } (by decide)).2.1 none (.other "connection refused")
        (by decide)).1

/-- C7. After a successful initiate exchange whose `Location` parses, `UploadBlob` returns
exactly the error of the PUT: the error of `http.NewRequest` when the request cannot be
built (and then nothing is sent), otherwise the error the transport reports for the PUT,
which is nil whenever the transport hands back a response, whatever its status code. -/
theorem UploadBlob_returns_put_error (registry : Registry) (cxt : Context)
    (repository digest : String) (content : Option String) (tr : Trace)
    (post : Request) (resp : Response) (locationURL : URL)
    (hpost : NewRequest "POST" (registry.url "/v2/%s/blobs/uploads/" [repository]) none
      = .ok post)
    (hdo : registry.Client.transport (initiateRequest post cxt) = (some resp, none))
    (hloc : NetURL.Parse (resp.Header.Get "Location") = .ok locationURL) :
    (∀ err, NewRequest "PUT" (uploadAddress locationURL digest).String content = .error err →
        (registry.UploadBlob cxt repository digest content tr).1 = .ret (some err)
          ∧ sentRequests (registry.UploadBlob cxt repository digest content tr).2
            = sentRequests tr ++ [initiateRequest post cxt])
      ∧ ∀ upload, NewRequest "PUT" (uploadAddress locationURL digest).String content
          = .ok upload →
        (registry.UploadBlob cxt repository digest content tr).1
            = .ret (registry.Client.transport
                (uploadRequest upload (resp.Header.Get "Request-Token") cxt)).2
          ∧ sentRequests (registry.UploadBlob cxt repository digest content tr).2
            = sentRequests tr ++ [initiateRequest post cxt,
                uploadRequest upload (resp.Header.Get "Request-Token") cxt]
          ∧ ∀ putResp, registry.Client.transport
                (uploadRequest upload (resp.Header.Get "Request-Token") cxt)
                  = (some putResp, none) →
              (registry.UploadBlob cxt repository digest content tr).1 = .ret none := by
  have hinit := initiateUpload_ok registry cxt repository tr post resp locationURL hpost hdo hloc
  have hup := UploadBlob_after_initiate registry cxt repository digest content tr _ _ _ hinit
  refine ⟨?_, ?_⟩
  · intro err hput
    rw [hup, hput]
    refine ⟨rfl, ?_⟩
    simp only [sentRequests_Logf, sentRequests_append]
    simp [sentRequests]
  · intro upload hput
    rw [hup, hput]
    refine ⟨rfl, ?_, ?_⟩
    · simp only [sentRequests_Logf, sentRequests_append]
      simp [sentRequests]
    · intro putResp hresp
      simp only [hresp]

/-- C7 at a concrete input: the transport answers the PUT with a response (status 201)
and `UploadBlob` returns nil. -/
theorem UploadBlob_returns_put_error_example :
    (uploadRegistry.UploadBlob (.derived 7) "repo" "sha256:abc" (some "data") []).1
      = .ret none := by
  have hpost : NewRequest "POST" (uploadRegistry.url "/v2/%s/blobs/uploads/" ["repo"]) none
      = .ok { Method := "POST"
              URL := { Scheme := "https", Host := "registry.example",
                       Path := "/v2/repo/blobs/uploads/" }
              Header := []
              Body := none
              Host := "registry.example"
              ctx := Context.background } := by decide
  have h := UploadBlob_returns_put_error uploadRegistry (.derived 7) "repo" "sha256:abc"
    (some "data") [] _
    (responseWith 202 [("Location", "https://host/upload/abc"), ("Request-Token", "tok123")] 1)
    { Scheme := "https", Host := "host", Path := "/upload/abc" }
    hpost (by decide) (by decide)
  exact (h.2 { Method := "PUT"
               URL := { Scheme := "https", Host := "host", Path := "/upload/abc",
                        RawQuery := "digest=sha256%3Aabc" }
               Header := []
               Body := some "data"
               Host := "host"
               ctx := Context.background } (by decide)).1

/-- C10, as amended. Every request an `UploadBlob` call with context `cxt` hands to the
client, the initiate POST as well as the content PUT, is bound to `cxt`. -/
theorem UploadBlob_requests_bound_to_context (registry : Registry) (cxt : Context)
    (repository digest : String) (content : Option String) (tr : Trace) :
    ∃ issued, sentRequests (registry.UploadBlob cxt repository digest content tr).2
        = sentRequests tr ++ issued
      ∧ ∀ req ∈ issued, req.ctx = cxt ∧ (req.Method = "POST" ∨ req.Method = "PUT") := by
  cases hpost : NewRequest "POST" (registry.url "/v2/%s/blobs/uploads/" [repository]) none with
  | error err =>
    refine ⟨[], ?_, by simp⟩
    unfold Registry.UploadBlob
    rw [initiateUpload_build_error registry cxt repository tr err hpost]
    simp [sentRequests_Logf]
  | ok post =>
    obtain ⟨u, -, hreq⟩ := NewRequest_ok "POST" _ none post (by decide) hpost
    have hp : (initiateRequest post cxt).ctx = cxt
        ∧ (initiateRequest post cxt).Method = "POST" := by
      rw [hreq]
      exact ⟨rfl, rfl⟩
    have hone : ∀ req ∈ [initiateRequest post cxt],
        req.ctx = cxt ∧ (req.Method = "POST" ∨ req.Method = "PUT") := by
      intro req hmem
      rw [List.mem_singleton] at hmem
      rw [hmem]
      exact ⟨hp.1, Or.inl hp.2⟩
    rcases hdo : registry.Client.transport (initiateRequest post cxt) with ⟨resp, err⟩
    cases err with
    | some e =>
      refine ⟨[initiateRequest post cxt], ?_, hone⟩
      unfold Registry.UploadBlob
      rw [initiateUpload_transport_error registry cxt repository tr post resp e hpost hdo]
      simp only [sentRequests_append, sentRequests_Logf, sentRequests_sent,
              sentRequests_sent_closed, List.append_assoc, List.singleton_append]
    | none =>
      cases resp with
      | none =>
        refine ⟨[initiateRequest post cxt], ?_, hone⟩
        unfold Registry.UploadBlob
        rw [initiateUpload_nil_response registry cxt repository tr post hpost hdo]
        simp only [sentRequests_append, sentRequests_Logf, sentRequests_sent,
              sentRequests_sent_closed, List.append_assoc, List.singleton_append]
      | some r =>
        cases hloc : NetURL.Parse (r.Header.Get "Location") with
        | error e =>
          refine ⟨[initiateRequest post cxt], ?_, hone⟩
          unfold Registry.UploadBlob
          rw [initiateUpload_parse_error registry cxt repository tr post r e hpost hdo hloc]
          simp only [sentRequests_append, sentRequests_Logf, sentRequests_sent,
              sentRequests_sent_closed, List.append_assoc, List.singleton_append]
        | ok locationURL =>
          have hinit := initiateUpload_ok registry cxt repository tr post r locationURL
            hpost hdo hloc
          rw [UploadBlob_after_initiate registry cxt repository digest content tr _ _ _ hinit]
          cases hput : NewRequest "PUT" (uploadAddress locationURL digest).String content with
          | error e =>
            refine ⟨[initiateRequest post cxt], ?_, hone⟩
            simp only [sentRequests_append, sentRequests_Logf, sentRequests_sent,
              sentRequests_sent_closed, List.append_assoc, List.singleton_append]
          | ok upload =>
            obtain ⟨u2, -, hreq2⟩ := NewRequest_ok "PUT" _ content upload (by decide) hput
            refine ⟨[initiateRequest post cxt,
              uploadRequest upload (r.Header.Get "Request-Token") cxt], ?_, ?_⟩
            · simp only [sentRequests_append, sentRequests_Logf, sentRequests_sent,
              sentRequests_sent_closed, List.append_assoc, List.singleton_append]
            · intro req hmem
              simp only [List.mem_cons, List.mem_singleton, List.not_mem_nil, or_false] at hmem
              rcases hmem with h | h
              · rw [h]
                exact ⟨hp.1, Or.inl hp.2⟩
              · rw [h, hreq2]
                exact ⟨rfl, Or.inr rfl⟩

/-- C10, the claim as stated fails: in an upload with the context `derived 7`, the
initiate POST is handed to the client bound to that context, not to the background
context. -/
theorem UploadBlob_post_bound_to_context :
    (sentRequests (uploadRegistry.UploadBlob (.derived 7) "repo" "sha256:abc" (some "data")
        []).2).map (fun req => (req.Method, req.ctx))
      = [("POST", Context.derived 7), ("PUT", Context.derived 7)] := by
  decide

/-- C3, evaluated where it fails: the initiate response carries no `Location`; `UploadBlob`
still hands a PUT to the client, addressed to `?digest=sha256%3Aabc`, and returns nil. -/
theorem UploadBlob_without_location_sends_put :
    (responseWith 202 [("Request-Token", "tok123")] 1).Header.Get "Location" = ""
      ∧ (noLocationRegistry.UploadBlob (.derived 7) "repo" "sha256:abc" (some "data") []).1
        = .ret none
      ∧ (sentRequests (noLocationRegistry.UploadBlob (.derived 7) "repo" "sha256:abc"
          (some "data") []).2).map (fun req => (req.Method, req.URL.String))
        = [("POST", "https://registry.example/v2/repo/blobs/uploads/"),
           ("PUT", "?digest=sha256%3Aabc")] := by
  decide

/-- C5, evaluated where it fails: in a successful upload the transport hands back body 1
for the POST and body 2 for the PUT; body 1 is closed once, body 2 is never closed. -/
theorem UploadBlob_put_body_not_closed :
    (uploadRegistry.UploadBlob (.derived 7) "repo" "sha256:abc" (some "data") []).1 = .ret none
      ∧ (sentRequests (uploadRegistry.UploadBlob (.derived 7) "repo" "sha256:abc"
          (some "data") []).2).map
            (fun req => (req.Method, (uploadRegistry.Client.transport req).1.map (·.Body.id)))
        = [("POST", some 1), ("PUT", some 2)]
      ∧ closeCount 1 (uploadRegistry.UploadBlob (.derived 7) "repo" "sha256:abc"
          (some "data") []).2 = 1
      ∧ closeCount 2 (uploadRegistry.UploadBlob (.derived 7) "repo" "sha256:abc"
          (some "data") []).2 = 0 := by
  decide

/-- C4, the claim as stated fails: with `Location: https://host/upload/abc` and the digest
`sha256:abc` the PUT goes to `https://host/upload/abc?digest=sha256%3Aabc`, which is not
the location followed by `?digest=` and the digest. -/
theorem UploadBlob_put_address_is_escaped :
    (sentRequests (uploadRegistry.UploadBlob (.derived 7) "repo" "sha256:abc" (some "data")
        []).2).map (fun req => (req.Method, req.URL.String))
        = [("POST", "https://registry.example/v2/repo/blobs/uploads/"),
           ("PUT", "https://host/upload/abc?digest=sha256%3Aabc")]
      ∧ "https://host/upload/abc?digest=sha256%3Aabc"
        ≠ "https://host/upload/abc" ++ "?digest=" ++ "sha256:abc" := by
  decide

/-- C4, as amended. For every digest, and every successful initiate response that carries
a `Location` that is present, without query or fragment, in the form Go prints it
(`plainLocation`), and a
`Request-Token`, the second request `UploadBlob` issues is a PUT whose address is exactly
the location followed by `?digest=` and the query-escaped digest (`url.QueryEscape`), whose
`Authorization` header is `Bearer ` followed by the token, whose `Content-Type` is
`application/octet-stream` and whose body is the caller-supplied content. -/
theorem UploadBlob_put_request (registry : Registry) (cxt : Context)
    (repository digest : String) (content : Option String) (tr : Trace)
    (post : Request) (resp : Response)
    (hpost : NewRequest "POST" (registry.url "/v2/%s/blobs/uploads/" [repository]) none
      = .ok post)
    (hdo : registry.Client.transport (initiateRequest post cxt) = (some resp, none))
    (hloc : plainLocation (resp.Header.Get "Location") = true) :
    ∃ put, sentRequests (registry.UploadBlob cxt repository digest content tr).2
          = sentRequests tr ++ [initiateRequest post cxt, put]
      ∧ put.Method = "PUT"
      ∧ put.URL.String = resp.Header.Get "Location" ++ "?digest=" ++ QueryEscape digest
      ∧ put.Header.Get "Authorization" = "Bearer " ++ resp.Header.Get "Request-Token"
      ∧ put.Header.Get "Content-Type" = "application/octet-stream"
      ∧ put.Body = content := by
  unfold plainLocation at hloc
  cases hparse : NetURL.Parse (resp.Header.Get "Location") with
  | error e => rw [hparse] at hloc; cases hloc
  | ok u =>
    rw [hparse] at hloc
    simp only [Bool.and_eq_true, decide_eq_true_eq, Bool.not_eq_true', ne_eq] at hloc
    obtain ⟨⟨⟨⟨⟨-, hstr⟩, hq⟩, hf⟩, hstar⟩, hport⟩ := hloc
    have hq' : '?' ∉ (resp.Header.Get "Location").data := by
      intro h
      rw [← Strings.contains_iff] at h
      exact Bool.noConfusion (h.symm.trans hq)
    have hf' : '#' ∉ (resp.Header.Get "Location").data := by
      intro h
      rw [← Strings.contains_iff] at h
      exact Bool.noConfusion (h.symm.trans hf)
    obtain ⟨hd1, hd2, hd3, hd4⟩ := digestQuery_plain digest
    obtain ⟨hp2, hrq, hfq, hfr⟩ := Parse_append_query (resp.Header.Get "Location")
      ("digest=" ++ QueryEscape digest) u hq' hf' hstar hd1 hd2 hd3 hd4 hparse
    have hne : ("digest=" ++ QueryEscape digest) ≠ "" := by
      intro h
      apply hd1
      rw [h]
    have haddr : (uploadAddress u digest).String
        = resp.Header.Get "Location" ++ "?" ++ ("digest=" ++ QueryEscape digest) := by
      rw [uploadAddress_of_no_query u digest hrq, URL_String_with_query u _ hrq hfq hfr hne, hstr]
    have hput : NewRequest "PUT" (uploadAddress u digest).String content
        = .ok { Method := "PUT"
                URL := { u with RawQuery := "digest=" ++ QueryEscape digest }
                Header := []
                Body := content
                Host := u.Host
                ctx := Context.background } := by
      rw [haddr]
      unfold NewRequest
      rw [hp2]
      simp only [hport]
      rfl
    have hinit := initiateUpload_ok registry cxt repository tr post resp u hpost hdo hparse
    refine ⟨uploadRequest
      { Method := "PUT", URL := { u with RawQuery := "digest=" ++ QueryEscape digest },
        Header := [], Body := content, Host := u.Host, ctx := Context.background }
      (resp.Header.Get "Request-Token") cxt, ?_, rfl, ?_, ?_, ?_, rfl⟩
    · rw [UploadBlob_after_initiate registry cxt repository digest content tr _ _ _ hinit, hput]
      simp only [sentRequests_append, sentRequests_Logf, sentRequests_sent,
        sentRequests_sent_closed, List.append_assoc, List.singleton_append]
    · show URL.String { u with RawQuery := "digest=" ++ QueryEscape digest } = _
      rw [URL_String_with_query u _ hrq hfq hfr hne, hstr,
        show ("?digest=" : String) = "?" ++ "digest=" from rfl]
      simp only [String.append_assoc]
    · show Header.Get (Header.Set (Header.Set [] "Content-Type" _) "Authorization" _) _ = _
      rw [Header_get_authorization, Sprintf_bearer]
    · exact Header_get_content_type _ _

/-- C4, as amended, at a concrete input: `Location: https://host/upload/abc`,
`Request-Token: tok123`, digest `sha256:abc`. -/
theorem UploadBlob_put_request_example :
    ∃ put, sentRequests (uploadRegistry.UploadBlob (.derived 7) "repo" "sha256:abc"
          (some "data") []).2
          = [initiateRequest
              { Method := "POST",
                URL := { Scheme := "https", Host := "registry.example",
                         Path := "/v2/repo/blobs/uploads/" },
                Header := [], Body := none, Host := "registry.example",
                ctx := Context.background } (.derived 7), put]
      ∧ put.Method = "PUT"
      ∧ put.URL.String = "https://host/upload/abc?digest=sha256%3Aabc"
      ∧ put.Header.Get "Authorization" = "Bearer tok123"
      ∧ put.Header.Get "Content-Type" = "application/octet-stream"
      ∧ put.Body = some "data" :=
  UploadBlob_put_request uploadRegistry (.derived 7) "repo" "sha256:abc" (some "data") []
    { Method := "POST"
      URL := { Scheme := "https", Host := "registry.example",
               Path := "/v2/repo/blobs/uploads/" }
      Header := []
      Body := none
      Host := "registry.example"
      ctx := Context.background }
    (responseWith 202 [("Location", "https://host/upload/abc"), ("Request-Token", "tok123")] 1)
    (by decide) (by decide) (by decide)
